/-
Verification of the 2D Euler-method orbital simulation (Examples/scripts/euler/earth.py).

The physics core is embedded shallowly over the real numbers:
* `Body` mirrors the attributes of the Python class `Object`;
* `giveMotionImpulse` embeds the impulse composition of `Object.giveMotion`;
* `step` embeds one iteration of the time loop of `Object.vectorUpdate`,
  with `gravContrib`/`netVector` embedding the inner force-accumulation loop;
* `run` embeds the whole time loop together with the collision check and
  early termination;
* `advanceRegistry` embeds a `vectorUpdate` call on one member of the
  instance registry, the others being the gravitational sources.

Python raises `ZeroDivisionError` when a float division has a zero divisor,
so every fallible operation is embedded in `Except Unit`, an `.error ()`
marking exactly the program points where the script would raise.
-/
import Mathlib

namespace EulerEarth

noncomputable section

/-- Gravitational constant `G = 6.673e-11` from the script. -/
def G : ℝ := 6.673e-11

/-- Grid scale constant `gridScale = 10000000`: one grid unit is 10^7 metres. -/
def gridScale : ℝ := 10000000

/-- Conversion `math.radians`: degrees to radians. -/
def radians (d : ℝ) : ℝ := d * Real.pi / 180

/-- Conversion `math.degrees`: radians to degrees. -/
def degrees (r : ℝ) : ℝ := r * 180 / Real.pi

/-- The state of one `Object` instance: name, 2D position (grid units),
radius (grid units), mass (kg), display colour, scalar velocity (m/s) and
heading `motionDirection` (degrees, clockwise from the vertical axis).
In the script `motionDirection` only comes into existence at the first
`giveMotion` call; here it is a plain field. -/
structure Body where
  name : String
  position : ℝ × ℝ
  radius : ℝ
  mass : ℝ
  color : String
  velocity : ℝ
  motionDirection : ℝ

/-- Constructor `Object.__init__`: a fresh body has `velocity = 0`.  The source leaves
`motionDirection` unset until `giveMotion`; the model initialises it to 0. -/
def mkObject (name : String) (position : ℝ × ℝ) (radius mass : ℝ) (color : String) : Body :=
  { name := name, position := position, radius := radius, mass := mass,
    color := color, velocity := 0, motionDirection := 0 }

/-- The `asin` argument selected by the sign quadrant of `(x, y)` in the
net-force recombination (lines 116-123) and in the nonzero branch of
`giveMotion` (lines 61-68). `n` is the Euclidean norm of the vector. -/
def quadArg (x y n : ℝ) : ℝ :=
  if x > 0 ∧ y > 0 then |x| / n
  else if x > 0 ∧ y < 0 then |y| / n
  else if x < 0 ∧ y < 0 then |x| / n
  else |y| / n

/-- The fixed degree offset selected by the sign quadrant of `(x, y)` in the
net-force recombination (lines 116-123). -/
def quadOffset (x y : ℝ) : ℝ :=
  if x > 0 ∧ y > 0 then 0
  else if x > 0 ∧ y < 0 then 90
  else if x < 0 ∧ y < 0 then 180
  else 270

/-- The heading reconstructed from a vector `(x, y)` of norm `n` by the
quadrant scheme of lines 116-123 (also lines 61-68). -/
def quadDir (x y n : ℝ) : ℝ :=
  degrees (Real.arcsin (quadArg x y n)) + quadOffset x y

/-- The `asin` argument selected by the sign quadrant of the relative
position `(x, y)` in the gravity-direction computation (lines 92-102);
`d` is the planar distance. -/
def gravArg (x y d : ℝ) : ℝ :=
  if x ≤ 0 ∧ y > 0 then |y| / d
  else if x > 0 ∧ y ≥ 0 then |x| / d
  else if x ≥ 0 ∧ y < 0 then |y| / d
  else |x| / d

/-- The fixed degree offset selected by the sign quadrant of the relative
position `(x, y)` in the gravity-direction computation (lines 92-102). -/
def gravOffset (x y : ℝ) : ℝ :=
  if x ≤ 0 ∧ y > 0 then 90
  else if x > 0 ∧ y ≥ 0 then 180
  else if x ≥ 0 ∧ y < 0 then 270
  else 0

/-- Heading `gravityDirection` of lines 92-102. -/
def gravDir (x y d : ℝ) : ℝ :=
  degrees (Real.arcsin (gravArg x y d)) + gravOffset x y

/-- One iteration of the inner loop of `vectorUpdate` (lines 84-108): the
gravitational force vector `(x_gF, y_gF)` that the other body `x` exerts on
`b`.  When the planar distance is zero the script divides by zero in
`gravityForce` (and in the `asin` argument), raising `ZeroDivisionError`. -/
def gravContrib (b x : Body) : Except Unit (ℝ × ℝ) :=
  let distance := Real.sqrt ((b.position.1 - x.position.1) ^ 2 +
    (b.position.2 - x.position.2) ^ 2)
  if distance = 0 then .error ()
  else
    let gravityForce := G * (b.mass * x.mass) / (distance * gridScale) ^ 2
    let x_pos := b.position.1 - x.position.1
    let y_pos := b.position.2 - x.position.2
    let gravityDirection := gravDir x_pos y_pos distance
    .ok (gravityForce * Real.sin (radians gravityDirection),
         gravityForce * Real.cos (radians gravityDirection))

/-- The inner loop of `vectorUpdate` accumulating `(x_net, y_net)` over the
other bodies, starting from the accumulator `acc`. -/
def addContribs (b : Body) (acc : ℝ × ℝ) : List Body → Except Unit (ℝ × ℝ)
  | [] => .ok acc
  | x :: rest =>
    match gravContrib b x with
    | .error e => .error e
    | .ok c => addContribs b (acc.1 + c.1, acc.2 + c.2) rest

/-- The summed gravitational vector `(x_net, y_net)` before the motion force
is added (lines 82-108). -/
def netVector (b : Body) (others : List Body) : Except Unit (ℝ × ℝ) :=
  addContribs b (0, 0) others

/-- The collision condition of lines 132-135: some other body `x` is within
squared planar distance `x.radius ^ 2` of `b`. -/
def collides (b : Body) (others : List Body) : Prop :=
  ∃ x ∈ others, (b.position.1 - x.position.1) ^ 2 +
    (b.position.2 - x.position.2) ^ 2 ≤ x.radius ^ 2

/-- One iteration of the time loop of `vectorUpdate` (lines 80-128), up to
but not including the collision check: accumulate gravity, add the motion
force `mass * velocity` decomposed along the current heading, recombine the
net vector into a heading by the quadrant scheme, set the new velocity to
`netForce / mass` and advance the position by `velocity / gridScale` along
the new heading.  The script raises `ZeroDivisionError` when `netForce = 0`
(inside the quadrant branch) and, failing that, when `mass = 0` (in the
velocity update); both points are `.error ()` here. -/
def step (b : Body) (others : List Body) : Except Unit Body :=
  match netVector b others with
  | .error e => .error e
  | .ok net =>
    let motionForce := b.mass * b.velocity
    let x_net := net.1 + motionForce * Real.sin (radians b.motionDirection)
    let y_net := net.2 + motionForce * Real.cos (radians b.motionDirection)
    let netForce := Real.sqrt (x_net ^ 2 + y_net ^ 2)
    if netForce = 0 then .error ()
    else if b.mass = 0 then .error ()
    else
      let dir := quadDir x_net y_net netForce
      let velocity := netForce / b.mass
      let traveled := velocity / gridScale
      .ok { b with
        motionDirection := dir,
        velocity := velocity,
        position := (b.position.1 + Real.sin (radians dir) * traveled,
                     b.position.2 + Real.cos (radians dir) * traveled) }

open Classical in
/-- The time loop of `vectorUpdate` (lines 80-138): run `time` steps of one
second for `b`, record each end-of-step position in `data`, and stop early
with flag `true` as soon as the collision condition holds at the end of a
step.  A raised `ZeroDivisionError` aborts the whole call (the script never
reaches its `plt.plot`), hence the `.error` propagation. -/
def run (b : Body) (others : List Body) : ℕ → Except Unit (Body × List (ℝ × ℝ) × Bool)
  | 0 => .ok (b, [], false)
  | t + 1 =>
    match step b others with
    | .error e => .error e
    | .ok b1 =>
      if collides b1 others then .ok (b1, [b1.position], true)
      else
        match run b1 others t with
        | .error e => .error e
        | .ok (b2, ps, c) => .ok (b2, b1.position :: ps, c)

/-- The impulse composition of `giveMotion` (lines 53-72).  With nonzero
current velocity the existing motion and the impulse are decomposed along
their headings, summed, and recombined by the quadrant scheme of lines
61-68 (a division by the new velocity, hence `.error ()` when the summed
vector vanishes); with zero current velocity the impulse is taken over
directly. -/
def giveMotionImpulse (b : Body) (deltaV motionDirection : ℝ) : Except Unit Body :=
  if b.velocity ≠ 0 then
    let x_comp := Real.sin (radians b.motionDirection) * b.velocity +
      Real.sin (radians motionDirection) * deltaV
    let y_comp := Real.cos (radians b.motionDirection) * b.velocity +
      Real.cos (radians motionDirection) * deltaV
    let velocity := Real.sqrt (x_comp ^ 2 + y_comp ^ 2)
    if velocity = 0 then .error ()
    else .ok { b with velocity := velocity,
                      motionDirection := quadDir x_comp y_comp velocity }
  else
    .ok { b with velocity := b.velocity + deltaV, motionDirection := motionDirection }

/-- Method `giveMotion` in full (lines 53-74): compose the impulse, then run the
integrator for `time` steps. -/
def giveMotion (b : Body) (deltaV motionDirection : ℝ) (time : ℕ) (others : List Body) :
    Except Unit (Body × List (ℝ × ℝ) × Bool) :=
  match giveMotionImpulse b deltaV motionDirection with
  | .error e => .error e
  | .ok b1 => run b1 others time

/-- A `vectorUpdate` call on one member of the instance registry: the body
`b` is advanced against all the other registered bodies (`pre ++ post`,
the list comprehension of line 84/132 with `b` filtered out by identity),
and only `b`'s slot of the registry is replaced. -/
def advanceRegistry (pre : List Body) (b : Body) (post : List Body) (time : ℕ) :
    Except Unit (List Body × List (ℝ × ℝ) × Bool) :=
  match run b (pre ++ post) time with
  | .error e => .error e
  | .ok (b1, ps, c) => .ok (pre ++ b1 :: post, ps, c)

/-- A body at rest: velocity 0 and no impulse ever given. -/
def restBody : Body := mkObject "Rest" (50, 50) 1 1 "black"

/-- A moving body with heading exactly 90 degrees. -/
def eastBody : Body :=
  { name := "East", position := (0, 0), radius := 1, mass := 1, color := "black",
    velocity := 1, motionDirection := 90 }

/-- A moving body with heading 45 degrees, strictly inside a quadrant. -/
def neBody : Body :=
  { name := "NE", position := (0, 0), radius := 1, mass := 1, color := "black",
    velocity := 2, motionDirection := 45 }

/-- A massive attractor sitting at the origin; its mass is chosen so that
the gravitational force it exerts at distance 1 is exactly `gridScale`. -/
def exO : Body :=
  { name := "Attractor", position := (0, 0), radius := 3, mass := 10 ^ 35 / 6673,
    color := "green", velocity := 0, motionDirection := 0 }

/-- A unit-mass probe one grid unit above the attractor, at rest. -/
def exS : Body :=
  { name := "Probe", position := (0, 1), radius := 1, mass := 1, color := "black",
    velocity := 0, motionDirection := 0 }

/-- The probe after one integration step against the attractor. -/
def exS' : Body :=
  { exS with position := (0, 2), velocity := 10 ^ 7, motionDirection := 360 }

/-- The trajectory of the probe: `exS` at step 0, `exS'` afterwards. -/
def exTraj : ℕ → Body := fun i => if i = 0 then exS else exS'

/-- A wide body overlapping `sumQ` within the sum of the two radii. -/
def sumP : Body :=
  { name := "P", position := (0, 0), radius := 10, mass := 1, color := "gray",
    velocity := 0, motionDirection := 0 }

/-- A small body within `sumP`'s radius but with `sumP` outside its own. -/
def sumQ : Body :=
  { name := "Q", position := (0, 4), radius := 1, mass := 1, color := "gray",
    velocity := 0, motionDirection := 0 }

/-- Two coincident bodies for the degenerate-distance scenario. -/
def coincA : Body := mkObject "CoincA" (5, 5) 1 1 "red"

/-- Second coincident body, at the same position as `coincA`. -/
def coincB : Body := mkObject "CoincB" (5, 5) 2 2 "blue"

/-- Conversion `degrees` undoes `radians`. -/
lemma degrees_radians (h : ℝ) : degrees (radians h) = h := by
  unfold degrees radians
  field_simp

/-- A right angle in degrees. -/
lemma degrees_pi_div_two : degrees (Real.pi / 2) = 90 := by
  unfold degrees
  field_simp
  ring

/-- A coincident body makes the force-accumulation loop raise, whatever the
accumulator and wherever the body sits in the list. -/
lemma addContribs_coincident (b x : Body) (hpos : x.position = b.position) :
    ∀ (others : List Body) (acc : ℝ × ℝ), x ∈ others →
      addContribs b acc others = .error () := by
  intro others
  induction others with
  | nil => intro acc hmem; simp at hmem
  | cons y rest ih =>
    intro acc hmem
    rcases List.mem_cons.mp hmem with rfl | hmem
    · simp [addContribs, gravContrib, hpos]
    · simp only [addContribs]
      cases hgc : gravContrib b y with
      | error e => cases e; rfl
      | ok c => exact ih _ hmem

/-- The fields of a body that one integration step never writes. -/
lemma step_frame (b b' : Body) (others : List Body) (h : step b others = .ok b') :
    b'.name = b.name ∧ b'.mass = b.mass ∧ b'.radius = b.radius ∧ b'.color = b.color := by
  simp only [step] at h
  repeat' split at h
  all_goals
    first
      | exact Except.noConfusion h
      | (rw [Except.ok.injEq] at h; subst h; exact ⟨rfl, rfl, rfl, rfl⟩)

/-- The fields of a body that the whole time loop never writes. -/
lemma run_frame : ∀ (t : ℕ) (b : Body) (others : List Body) (b' : Body)
    (ps : List (ℝ × ℝ)) (c : Bool), run b others t = .ok (b', ps, c) →
    b'.name = b.name ∧ b'.mass = b.mass ∧ b'.radius = b.radius ∧ b'.color = b.color := by
  intro t
  induction t with
  | zero =>
    intro b others b' ps c h
    simp only [run, Except.ok.injEq, Prod.mk.injEq] at h
    obtain ⟨h1, -, -⟩ := h
    subst h1
    exact ⟨rfl, rfl, rfl, rfl⟩
  | succ t ih =>
    intro b others b' ps c h
    simp only [run] at h
    split at h
    · exact absurd h (by simp)
    · rename_i b1 hstep
      obtain ⟨f1, f2, f3, f4⟩ := step_frame b b1 others hstep
      split at h
      · simp only [Except.ok.injEq, Prod.mk.injEq] at h
        obtain ⟨h1, -, -⟩ := h
        subst h1
        exact ⟨f1, f2, f3, f4⟩
      · split at h
        · exact absurd h (by simp)
        · rename_i b2 ps2 c2 hrun
          simp only [Except.ok.injEq, Prod.mk.injEq] at h
          obtain ⟨h1, -, -⟩ := h
          subst h1
          obtain ⟨g1, g2, g3, g4⟩ := ih b1 others b2 ps2 c2 hrun
          exact ⟨g1.trans f1, g2.trans f2, g3.trans f3, g4.trans f4⟩

/-- If the collision condition first holds at the end of step `k + 1`, the
time loop stops there with the collision flag raised and exactly the
positions of steps `1 .. k + 1` recorded. -/
lemma run_first_collision (others : List Body) :
    ∀ (k time : ℕ) (b : Body) (traj : ℕ → Body), traj 0 = b →
      (∀ i, i ≤ k → step (traj i) others = .ok (traj (i + 1))) →
      (∀ i, i < k → ¬ collides (traj (i + 1)) others) →
      collides (traj (k + 1)) others → k < time →
      run b others time = .ok (traj (k + 1),
        (List.range (k + 1)).map (fun i => (traj (i + 1)).position), true) := by
  intro k
  induction k with
  | zero =>
    intro time b traj h0 hstep hnc hcol htime
    obtain ⟨t, rfl⟩ : ∃ t, time = t + 1 := ⟨time - 1, by omega⟩
    have hs := hstep 0 (le_refl 0)
    rw [h0] at hs
    simp only [run, hs]
    rw [if_pos hcol]
    simp [List.range_succ]
  | succ k ih =>
    intro time b traj h0 hstep hnc hcol htime
    obtain ⟨t, rfl⟩ : ∃ t, time = t + 1 := ⟨time - 1, by omega⟩
    have hs := hstep 0 (Nat.zero_le _)
    rw [h0] at hs
    have hnc0 := hnc 0 (Nat.succ_pos k)
    have ih' := ih t (traj 1) (fun i => traj (i + 1)) rfl
      (fun i hi => hstep (i + 1) (Nat.succ_le_succ hi))
      (fun i hi => hnc (i + 1) (Nat.succ_lt_succ hi))
      hcol (by omega)
    simp only [run, hs]
    rw [if_neg hnc0, ih']
    conv_rhs => rw [List.range_succ_eq_map]
    simp [List.map_map, Function.comp]

/-- If the collision condition holds at the end of no step, the time loop
completes all `time` steps, records one position per step, and reports no
collision. -/
lemma run_all_clear (others : List Body) :
    ∀ (time : ℕ) (b : Body) (traj : ℕ → Body), traj 0 = b →
      (∀ i, i < time → step (traj i) others = .ok (traj (i + 1))) →
      (∀ i, i < time → ¬ collides (traj (i + 1)) others) →
      run b others time = .ok (traj time,
        (List.range time).map (fun i => (traj (i + 1)).position), false) := by
  intro time
  induction time with
  | zero =>
    intro b traj h0 _ _
    rw [← h0]
    simp [run]
  | succ t ih =>
    intro b traj h0 hstep hnc
    have hs := hstep 0 (Nat.succ_pos t)
    rw [h0] at hs
    have hnc0 := hnc 0 (Nat.succ_pos t)
    have ih' := ih (traj 1) (fun i => traj (i + 1)) rfl
      (fun i hi => hstep (i + 1) (Nat.succ_lt_succ hi))
      (fun i hi => hnc (i + 1) (Nat.succ_lt_succ hi))
    simp only [run, hs]
    rw [if_neg hnc0, ih']
    conv_rhs => rw [List.range_succ_eq_map]
    simp [List.map_map, Function.comp]

/-- The force-accumulation loop over an empty registry returns the zero
vector. -/
lemma netVector_nil (b : Body) : netVector b [] = .ok (0, 0) := rfl

/-- C1 (the code at the failing input): for a single registered body with
zero velocity and no impulse, the very first integration step raises the
division-by-zero error, because the net vector is zero and the quadrant
branch divides `abs(y_net)` by `netForce = 0`; no position sequence and no
collision signal is produced. -/
theorem c1_rest_body_run_raises : run restBody [] 1 = .error () := by
  norm_num [run, step, netVector_nil, restBody, mkObject, Real.sqrt_zero]

/-- C4 (amended): if every one of the `time` steps succeeds numerically and
the collision condition holds at the end of none of them, the run completes
normally and the output position sequence has exactly `time` entries. -/
theorem c4_output_length (b : Body) (others : List Body) (time : ℕ) (traj : ℕ → Body)
    (h0 : traj 0 = b)
    (hstep : ∀ i, i < time → step (traj i) others = .ok (traj (i + 1)))
    (hnc : ∀ i, i < time → ¬ collides (traj (i + 1)) others) :
    ∃ ps : List (ℝ × ℝ), run b others time = .ok (traj time, ps, false) ∧
      ps.length = time :=
  ⟨(List.range time).map (fun i => (traj (i + 1)).position),
    run_all_clear others time b traj h0 hstep hnc, by simp⟩

/-- Witness for C4: a zero-second run of the resting body. -/
theorem c4_output_length_witness :
    ∃ ps : List (ℝ × ℝ), run restBody [] 0 = .ok (restBody, ps, false) ∧
      ps.length = 0 :=
  c4_output_length restBody [] 0 (fun _ => restBody) rfl
    (fun i hi => absurd hi (Nat.not_lt_zero i)) (fun i hi => absurd hi (Nat.not_lt_zero i))

/-- Counterexample for C4 as stated: a one-second run of a single resting
body triggers the collision condition at no step, yet produces no
one-entry position sequence: the step raises the division-by-zero error
instead. -/
theorem c4_no_output_on_numeric_error :
    run restBody [] 1 = .error () ∧
      ∀ out : Body × List (ℝ × ℝ) × Bool, run restBody [] 1 ≠ .ok out := by
  have h : run restBody [] 1 = .error () := by
    norm_num [run, step, netVector_nil, restBody, mkObject, Real.sqrt_zero]
  exact ⟨h, fun out hout => by rw [h] at hout; exact Except.noConfusion hout⟩

/-- The gravity contribution of the attractor on the probe: distance 1,
force `10 ^ 7`, gravity direction 180 degrees, hence the vector
`(0, -(10 ^ 7))`. -/
lemma gravContrib_ex : gravContrib exS exO = .ok (0, -(10 ^ 7 : ℝ)) := by
  have hxpos : exS.position.1 - exO.position.1 = 0 := by norm_num [exS, exO]
  have hypos : exS.position.2 - exO.position.2 = 1 := by norm_num [exS, exO]
  have hdir : gravDir 0 1 1 = 180 := by
    have harg : gravArg 0 1 1 = 1 := by norm_num [gravArg]
    rw [gravDir, harg, Real.arcsin_one, degrees_pi_div_two]
    norm_num [gravOffset]
  have hforce : G * (exS.mass * exO.mass) / ((1 : ℝ) * gridScale) ^ 2 = 10 ^ 7 := by
    norm_num [G, gridScale, exS, exO]
  simp only [gravContrib, hxpos, hypos]
  rw [show Real.sqrt ((0 : ℝ) ^ 2 + (1 : ℝ) ^ 2) = 1 from by norm_num]
  rw [if_neg one_ne_zero, hdir, hforce]
  rw [show radians 180 = Real.pi from by unfold radians; ring]
  rw [Real.sin_pi, Real.cos_pi]
  norm_num

/-- The net vector on the probe is the attractor's contribution alone. -/
lemma netVector_ex : netVector exS [exO] = .ok (0, -(10 ^ 7 : ℝ)) := by
  simp only [netVector, addContribs, gravContrib_ex]
  norm_num

/-- The net-force recombination of the vector `(0, -(10 ^ 7))`: the final
`else` branch fires and yields heading 360. -/
lemma quadDir_ex : quadDir 0 (-(10 ^ 7 : ℝ)) (10 ^ 7) = 360 := by
  have harg : quadArg 0 (-(10 ^ 7 : ℝ)) (10 ^ 7) = 1 := by
    rw [quadArg, if_neg (by norm_num), if_neg (by norm_num), if_neg (by norm_num)]
    rw [abs_neg]
    norm_num [abs_of_pos]
  rw [quadDir, harg, Real.arcsin_one, degrees_pi_div_two]
  rw [quadOffset, if_neg (by norm_num), if_neg (by norm_num), if_neg (by norm_num)]
  norm_num

/-- One full integration step of the probe against the attractor. -/
lemma step_ex : step exS [exO] = .ok exS' := by
  unfold step
  rw [netVector_ex]
  dsimp only
  have h1 : (0 : ℝ) + exS.mass * exS.velocity * Real.sin (radians exS.motionDirection) = 0 := by
    norm_num [exS]
  have h2 : -(10 ^ 7 : ℝ) + exS.mass * exS.velocity * Real.cos (radians exS.motionDirection) =
      -(10 ^ 7) := by
    norm_num [exS]
  rw [h1, h2]
  rw [show Real.sqrt ((0 : ℝ) ^ 2 + (-(10 ^ 7 : ℝ)) ^ 2) = 10 ^ 7 from by
    rw [show ((0 : ℝ) ^ 2 + (-(10 ^ 7 : ℝ)) ^ 2) = ((10 : ℝ) ^ 7) ^ 2 by ring]
    exact Real.sqrt_sq (by positivity)]
  rw [if_neg (by norm_num : ¬((10 : ℝ) ^ 7 = 0))]
  rw [if_neg (by norm_num [exS] : ¬(exS.mass = 0))]
  rw [quadDir_ex]
  rw [show radians 360 = 2 * Real.pi from by unfold radians; ring]
  rw [Real.sin_two_pi, Real.cos_two_pi]
  norm_num [exS, exS', gridScale]

/-- C3: if the collision condition first holds at the end of step `k + 1`
(and each step up to there succeeds numerically), the run terminates early
exactly there with the collision flag and the positions of steps
`1 .. k + 1`; moreover the collision condition reads only the target
body's radius — it is invariant under the moving body's radius, and a
configuration overlapping within the sum of both radii need not collide. -/
theorem c3_collision_termination (b : Body) (others : List Body) (time k : ℕ)
    (traj : ℕ → Body) (h0 : traj 0 = b)
    (hstep : ∀ i, i ≤ k → step (traj i) others = .ok (traj (i + 1)))
    (hnc : ∀ i, i < k → ¬ collides (traj (i + 1)) others)
    (hcol : collides (traj (k + 1)) others) (htime : k < time) :
    run b others time = .ok (traj (k + 1),
      (List.range (k + 1)).map (fun i => (traj (i + 1)).position), true) ∧
    (∀ (b2 : Body) (r : ℝ), collides { b2 with radius := r } others ↔ collides b2 others) ∧
    (∃ b3 x : Body,
      (b3.position.1 - x.position.1) ^ 2 + (b3.position.2 - x.position.2) ^ 2 ≤
        (b3.radius + x.radius) ^ 2 ∧ ¬ collides b3 [x]) := by
  refine ⟨run_first_collision others k time b traj h0 hstep hnc hcol htime, ?_, ?_⟩
  · intro b2 r
    simp [collides]
  · refine ⟨sumP, sumQ, by norm_num [sumP, sumQ], ?_⟩
    norm_num [collides, sumP, sumQ]

/-- Witness for C3: the probe collides with the attractor at the end of the
first step of a one-second run. -/
theorem c3_collision_termination_witness :
    run exS [exO] 1 = .ok (exTraj 1,
      (List.range 1).map (fun i => (exTraj (i + 1)).position), true) ∧
    (∀ (b2 : Body) (r : ℝ), collides { b2 with radius := r } [exO] ↔ collides b2 [exO]) ∧
    (∃ b3 x : Body,
      (b3.position.1 - x.position.1) ^ 2 + (b3.position.2 - x.position.2) ^ 2 ≤
        (b3.radius + x.radius) ^ 2 ∧ ¬ collides b3 [x]) :=
  c3_collision_termination exS [exO] 1 0 exTraj rfl
    (fun i hi => by
      have hz : i = 0 := Nat.le_zero.mp hi
      subst hz
      exact step_ex)
    (fun i hi => absurd hi (Nat.not_lt_zero i))
    (by
      show collides (exTraj 1) [exO]
      norm_num [exTraj, collides, exS', exS, exO])
    (by omega)

/-- C8: whenever an integration step succeeds, the new velocity is the
Euclidean norm of the summed net vector divided by the body's mass, and the
new position is the old position displaced by
`(sin(heading) * velocity / gridScale, cos(heading) * velocity / gridScale)`
with the heading and velocity just recomputed (compass convention: `sin`
feeds the x axis, `cos` the y axis). -/
theorem c8_step_equations (b : Body) (others : List Body) (xn yn : ℝ) (b' : Body)
    (hnet : netVector b others = .ok (xn, yn))
    (hstep : step b others = .ok b') :
    b'.velocity = Real.sqrt
        ((xn + b.mass * b.velocity * Real.sin (radians b.motionDirection)) ^ 2 +
          (yn + b.mass * b.velocity * Real.cos (radians b.motionDirection)) ^ 2) / b.mass ∧
    b'.position.1 = b.position.1 + Real.sin (radians b'.motionDirection) * (b'.velocity / gridScale) ∧
    b'.position.2 = b.position.2 + Real.cos (radians b'.motionDirection) * (b'.velocity / gridScale) := by
  simp only [step, hnet] at hstep
  split at hstep
  · exact Except.noConfusion hstep
  · split at hstep
    · exact Except.noConfusion hstep
    · rw [Except.ok.injEq] at hstep
      subst hstep
      exact ⟨rfl, rfl, rfl⟩

/-- Witness for C8: the probe's step against the attractor. -/
theorem c8_step_equations_witness :
    exS'.velocity = Real.sqrt
        (((0 : ℝ) + exS.mass * exS.velocity * Real.sin (radians exS.motionDirection)) ^ 2 +
          (-(10 ^ 7 : ℝ) + exS.mass * exS.velocity * Real.cos (radians exS.motionDirection)) ^ 2) /
        exS.mass ∧
    exS'.position.1 = exS.position.1 +
      Real.sin (radians exS'.motionDirection) * (exS'.velocity / gridScale) ∧
    exS'.position.2 = exS.position.2 +
      Real.cos (radians exS'.motionDirection) * (exS'.velocity / gridScale) :=
  c8_step_equations exS [exO] 0 (-(10 ^ 7)) exS' netVector_ex step_ex

/-- C6: if another registered body occupies exactly the same position as the
body being advanced, the integration step fails with the division-by-zero
error (a fatal numeric error for that step) instead of producing a finite
force or position update. -/
theorem c6_coincident_step_errors (b x : Body) (others : List Body)
    (hmem : x ∈ others) (hpos : x.position = b.position) :
    step b others = .error () := by
  have h := addContribs_coincident b x hpos others (0, 0) hmem
  simp only [step, netVector, h]

/-- Witness for C6: two coincident bodies at `(5, 5)`. -/
theorem c6_coincident_step_errors_witness : step coincA [coincB] = .error () :=
  c6_coincident_step_errors coincA coincB [coincB] (by simp) rfl

/-- C5 (corrected): for a vector with both components nonzero, the gravity
scheme of lines 92-102 and the net-force scheme of lines 116-123 select the
same axis ratio for `asin`, but their fixed offsets always differ by
exactly 180 degrees, never agree. -/
theorem c5_quadrant_schemes (x y d : ℝ) (hx : x ≠ 0) (hy : y ≠ 0) :
    gravArg x y d = quadArg x y d ∧
      (gravOffset x y = quadOffset x y + 180 ∨ quadOffset x y = gravOffset x y + 180) := by
  rcases hx.lt_or_lt with hx | hx <;> rcases hy.lt_or_lt with hy | hy
  · refine ⟨?_, Or.inr ?_⟩
    · simp [gravArg, quadArg, hx, hy, hx.le, hx.asymm, hy.asymm, not_le.mpr hx, not_le.mpr hy]
    · norm_num [gravOffset, quadOffset, hx, hy, hx.le, hx.asymm, hy.asymm,
        not_le.mpr hx, not_le.mpr hy]
  · refine ⟨?_, Or.inr ?_⟩
    · simp [gravArg, quadArg, hx, hy, hx.le, hx.asymm, hy.asymm]
    · norm_num [gravOffset, quadOffset, hx, hy, hx.le, hx.asymm, hy.asymm, not_le.mpr hx]
  · refine ⟨?_, Or.inl ?_⟩
    · simp [gravArg, quadArg, hx, hy, hx.le, hy.asymm, not_le.mpr hx, not_le.mpr hy]
    · norm_num [gravOffset, quadOffset, hx, hy, hx.le, hy.asymm, not_le.mpr hx,
        not_le.mpr hy]
  · refine ⟨?_, Or.inl ?_⟩
    · simp [gravArg, quadArg, hx, hy, hy.le, not_le.mpr hx]
    · norm_num [gravOffset, quadOffset, hx, hy, hy.le, not_le.mpr hx]

/-- Witness for C5 (corrected): the vector `(1, 1)`. -/
theorem c5_quadrant_schemes_witness :
    gravArg 1 1 5 = quadArg 1 1 5 ∧
      (gravOffset 1 1 = quadOffset 1 1 + 180 ∨ quadOffset 1 1 = gravOffset 1 1 + 180) :=
  c5_quadrant_schemes 1 1 5 (by norm_num) (by norm_num)

/-- Counterexample for C5 as stated: on the vector `(1, 1)` the gravity
scheme selects offset 180 while the net-force scheme selects offset 0, so
the two schemes do not use the same fixed offset. -/
theorem c5_offsets_differ : gravOffset 1 1 = 180 ∧ quadOffset 1 1 = 0 ∧
    gravOffset 1 1 ≠ quadOffset 1 1 := by
  refine ⟨?_, ?_, ?_⟩ <;> norm_num [gravOffset, quadOffset]

/-- C9: for a pure `+x` relative offset and a pure `+y` relative offset, the
asymmetric boundary conditions of lines 92-102 are satisfied by exactly one
branch, and the resulting gravity heading is the single unambiguous value
270 (respectively 180) degrees. -/
theorem c9_axis_alignment (x y : ℝ) (hx : 0 < x) (hy : 0 < y) :
    ((x > 0 ∧ (0 : ℝ) ≥ 0) ∧ ¬(x ≤ 0 ∧ (0 : ℝ) > 0) ∧ ¬(x ≥ 0 ∧ (0 : ℝ) < 0) ∧
      gravDir x 0 x = 270) ∧
    (((0 : ℝ) ≤ 0 ∧ y > 0) ∧ ¬((0 : ℝ) > 0 ∧ y ≥ 0) ∧ ¬((0 : ℝ) ≥ 0 ∧ y < 0) ∧
      gravDir 0 y y = 180) := by
  have harg_x : gravArg x 0 x = 1 := by
    simp [gravArg, hx, hx.le, abs_of_pos hx, div_self hx.ne']
  have harg_y : gravArg 0 y y = 1 := by
    simp [gravArg, hy, abs_of_pos hy, div_self hy.ne']
  refine ⟨⟨⟨hx, le_refl 0⟩, by simp [hx, not_le.mpr hx], by simp, ?_⟩,
    ⟨⟨le_refl 0, hy⟩, by simp, by simp [hy.asymm], ?_⟩⟩
  · rw [gravDir, harg_x, Real.arcsin_one, degrees_pi_div_two]
    simp [gravOffset, hx, not_le.mpr hx]
    norm_num
  · rw [gravDir, harg_y, Real.arcsin_one, degrees_pi_div_two]
    simp [gravOffset, hy]
    norm_num

/-- Witness for C9: offsets `(1, 0)` and `(0, 1)`. -/
theorem c9_axis_alignment_witness :
    (((1 : ℝ) > 0 ∧ (0 : ℝ) ≥ 0) ∧ ¬((1 : ℝ) ≤ 0 ∧ (0 : ℝ) > 0) ∧
      ¬((1 : ℝ) ≥ 0 ∧ (0 : ℝ) < 0) ∧ gravDir 1 0 1 = 270) ∧
    (((0 : ℝ) ≤ 0 ∧ (1 : ℝ) > 0) ∧ ¬((0 : ℝ) > 0 ∧ (1 : ℝ) ≥ 0) ∧
      ¬((0 : ℝ) ≥ 0 ∧ (1 : ℝ) < 0) ∧ gravDir 0 1 1 = 180) :=
  c9_axis_alignment 1 1 (by norm_num) (by norm_num)

/-- C10: advancing one registered body leaves every other registered body's
complete state unchanged, and leaves the advanced body's name, mass, radius
and colour unchanged, for any number of steps and also when the run ends in
a collision. -/
theorem c10_frame (pre post : List Body) (b : Body) (time : ℕ) (reg' : List Body)
    (ps : List (ℝ × ℝ)) (c : Bool)
    (h : advanceRegistry pre b post time = .ok (reg', ps, c)) :
    ∃ b', reg' = pre ++ b' :: post ∧ b'.name = b.name ∧ b'.mass = b.mass ∧
      b'.radius = b.radius ∧ b'.color = b.color := by
  unfold advanceRegistry at h
  split at h
  · exact absurd h (by simp)
  · rename_i b1 ps1 c1 hrun
    simp only [Except.ok.injEq, Prod.mk.injEq] at h
    obtain ⟨h1, -, -⟩ := h
    obtain ⟨f1, f2, f3, f4⟩ := run_frame time b (pre ++ post) b1 ps1 c1 hrun
    exact ⟨b1, h1.symm, f1, f2, f3, f4⟩

/-- Witness for C10: a zero-step advance of `restBody` in a singleton
registry. -/
theorem c10_frame_witness :
    ∃ b', ([restBody] : List Body) = [] ++ b' :: [] ∧ b'.name = restBody.name ∧
      b'.mass = restBody.mass ∧ b'.radius = restBody.radius ∧
      b'.color = restBody.color :=
  c10_frame [] [] restBody 0 [restBody] [] false rfl

/-- The Euclidean norm of a velocity decomposed along a heading. -/
lemma sqrt_comp_norm (θ v : ℝ) (hv : 0 ≤ v) :
    Real.sqrt ((Real.sin θ * v) ^ 2 + (Real.cos θ * v) ^ 2) = v := by
  have h : (Real.sin θ * v) ^ 2 + (Real.cos θ * v) ^ 2 =
      (Real.sin θ ^ 2 + Real.cos θ ^ 2) * v ^ 2 := by ring
  rw [h, Real.sin_sq_add_cos_sq, one_mul, Real.sqrt_sq hv]

/-- Strictly inside the first quadrant the recombination recovers the
angle. -/
lemma quadDir_q1 (θ v : ℝ) (hv : 0 < v) (h1 : 0 < θ) (h2 : θ < Real.pi / 2) :
    quadDir (Real.sin θ * v) (Real.cos θ * v) v = degrees θ := by
  have hpi := Real.pi_pos
  have hs : 0 < Real.sin θ := Real.sin_pos_of_pos_of_lt_pi h1 (by linarith)
  have hc : 0 < Real.cos θ := Real.cos_pos_of_mem_Ioo ⟨by linarith, h2⟩
  have hx : 0 < Real.sin θ * v := mul_pos hs hv
  have hy : 0 < Real.cos θ * v := mul_pos hc hv
  simp only [quadDir, quadArg, quadOffset]
  rw [if_pos ⟨hx, hy⟩, if_pos ⟨hx, hy⟩]
  rw [abs_of_pos hx, mul_div_cancel_right₀ _ hv.ne']
  rw [Real.arcsin_sin (by linarith) (by linarith), add_zero]

/-- Strictly inside the second quadrant the recombination recovers the
angle. -/
lemma quadDir_q2 (θ v : ℝ) (hv : 0 < v) (h1 : Real.pi / 2 < θ) (h2 : θ < Real.pi) :
    quadDir (Real.sin θ * v) (Real.cos θ * v) v = degrees θ := by
  have hpi := Real.pi_pos
  have hs : 0 < Real.sin θ := Real.sin_pos_of_pos_of_lt_pi (by linarith) h2
  have hc : Real.cos θ < 0 := Real.cos_neg_of_pi_div_two_lt_of_lt h1 (by linarith)
  have hx : 0 < Real.sin θ * v := mul_pos hs hv
  have hy : Real.cos θ * v < 0 := mul_neg_of_neg_of_pos hc hv
  simp only [quadDir, quadArg, quadOffset]
  rw [if_neg (by simp [hy.asymm]), if_pos ⟨hx, hy⟩,
    if_neg (by simp [hy.asymm]), if_pos ⟨hx, hy⟩]
  rw [abs_of_neg hy, show -(Real.cos θ * v) = -Real.cos θ * v from by ring,
    mul_div_cancel_right₀ _ hv.ne']
  rw [show -Real.cos θ = Real.sin (θ - Real.pi / 2) from (Real.sin_sub_pi_div_two θ).symm]
  rw [Real.arcsin_sin (by linarith) (by linarith)]
  unfold degrees
  field_simp
  ring

/-- Strictly inside the third quadrant the recombination recovers the
angle. -/
lemma quadDir_q3 (θ v : ℝ) (hv : 0 < v) (h1 : Real.pi < θ) (h2 : θ < 3 * Real.pi / 2) :
    quadDir (Real.sin θ * v) (Real.cos θ * v) v = degrees θ := by
  have hpi := Real.pi_pos
  have hs : Real.sin θ < 0 := by
    have hpos : 0 < Real.sin (θ - Real.pi) :=
      Real.sin_pos_of_pos_of_lt_pi (by linarith) (by linarith)
    rw [Real.sin_sub_pi] at hpos
    linarith
  have hc : Real.cos θ < 0 := Real.cos_neg_of_pi_div_two_lt_of_lt (by linarith) (by linarith)
  have hx : Real.sin θ * v < 0 := mul_neg_of_neg_of_pos hs hv
  have hy : Real.cos θ * v < 0 := mul_neg_of_neg_of_pos hc hv
  simp only [quadDir, quadArg, quadOffset]
  rw [if_neg (by simp [hx.asymm]), if_neg (by simp [hx.asymm]), if_pos ⟨hx, hy⟩,
    if_neg (by simp [hx.asymm]), if_neg (by simp [hx.asymm]), if_pos ⟨hx, hy⟩]
  rw [abs_of_neg hx, show -(Real.sin θ * v) = -Real.sin θ * v from by ring,
    mul_div_cancel_right₀ _ hv.ne']
  rw [show -Real.sin θ = Real.sin (θ - Real.pi) from (Real.sin_sub_pi θ).symm]
  rw [Real.arcsin_sin (by linarith) (by linarith)]
  unfold degrees
  field_simp
  ring

/-- Strictly inside the fourth quadrant the recombination recovers the
angle. -/
lemma quadDir_q4 (θ v : ℝ) (hv : 0 < v) (h1 : 3 * Real.pi / 2 < θ) (h2 : θ < 2 * Real.pi) :
    quadDir (Real.sin θ * v) (Real.cos θ * v) v = degrees θ := by
  have hpi := Real.pi_pos
  have hs : Real.sin θ < 0 := by
    have hneg : Real.sin (θ - 2 * Real.pi) < 0 :=
      Real.sin_neg_of_neg_of_neg_pi_lt (by linarith) (by linarith)
    rwa [Real.sin_sub_two_pi] at hneg
  have hc : 0 < Real.cos θ := by
    have hpos : 0 < Real.cos (θ - 2 * Real.pi) :=
      Real.cos_pos_of_mem_Ioo ⟨by linarith, by linarith⟩
    rwa [Real.cos_sub_two_pi] at hpos
  have hx : Real.sin θ * v < 0 := mul_neg_of_neg_of_pos hs hv
  have hy : 0 < Real.cos θ * v := mul_pos hc hv
  simp only [quadDir, quadArg, quadOffset]
  rw [if_neg (by simp [hx.asymm]), if_neg (by simp [hx.asymm]), if_neg (by simp [hy.asymm]),
    if_neg (by simp [hx.asymm]), if_neg (by simp [hx.asymm]), if_neg (by simp [hy.asymm])]
  rw [abs_of_pos hy, mul_div_cancel_right₀ _ hv.ne']
  rw [show Real.cos θ = Real.sin (θ - 3 * Real.pi / 2) from by
    rw [show θ - 3 * Real.pi / 2 = θ - 2 * Real.pi + Real.pi / 2 from by ring,
      Real.sin_add_pi_div_two, Real.cos_sub_two_pi]]
  rw [Real.arcsin_sin (by linarith) (by linarith)]
  unfold degrees
  field_simp
  ring

/-- For a positive speed and a heading strictly inside one of the four
quadrants, the quadrant recombination of the decomposed velocity returns
the heading unchanged. -/
lemma quadDir_radians (h v : ℝ) (hv : 0 < v)
    (hh : (0 < h ∧ h < 90) ∨ (90 < h ∧ h < 180) ∨ (180 < h ∧ h < 270) ∨
      (270 < h ∧ h < 360)) :
    quadDir (Real.sin (radians h) * v) (Real.cos (radians h) * v) v = h := by
  have hpi := Real.pi_pos
  have h180 : radians h = h * Real.pi / 180 := rfl
  rcases hh with ⟨ha, hb⟩ | ⟨ha, hb⟩ | ⟨ha, hb⟩ | ⟨ha, hb⟩
  · rw [quadDir_q1 (radians h) v hv
      (by rw [h180]; nlinarith [mul_pos ha hpi])
      (by rw [h180]; nlinarith [mul_pos (show (0 : ℝ) < 90 - h by linarith) hpi]),
      degrees_radians]
  · rw [quadDir_q2 (radians h) v hv
      (by rw [h180]; nlinarith [mul_pos (show (0 : ℝ) < h - 90 by linarith) hpi])
      (by rw [h180]; nlinarith [mul_pos (show (0 : ℝ) < 180 - h by linarith) hpi]),
      degrees_radians]
  · rw [quadDir_q3 (radians h) v hv
      (by rw [h180]; nlinarith [mul_pos (show (0 : ℝ) < h - 180 by linarith) hpi])
      (by rw [h180]; nlinarith [mul_pos (show (0 : ℝ) < 270 - h by linarith) hpi]),
      degrees_radians]
  · rw [quadDir_q4 (radians h) v hv
      (by rw [h180]; nlinarith [mul_pos (show (0 : ℝ) < h - 270 by linarith) hpi])
      (by rw [h180]; nlinarith [mul_pos (show (0 : ℝ) < 360 - h by linarith) hpi]),
      degrees_radians]

/-- C2 (amended): for a body with positive velocity whose heading lies
strictly inside one of the four quadrants, composing a `deltaV = 0` impulse
of any direction through `giveMotion` (with no integration steps) leaves
velocity and heading exactly unchanged. -/
theorem c2_impulse_identity (b : Body) (d : ℝ) (others : List Body) (hv : 0 < b.velocity)
    (hh : (0 < b.motionDirection ∧ b.motionDirection < 90) ∨
      (90 < b.motionDirection ∧ b.motionDirection < 180) ∨
      (180 < b.motionDirection ∧ b.motionDirection < 270) ∨
      (270 < b.motionDirection ∧ b.motionDirection < 360)) :
    giveMotion b 0 d 0 others = .ok (b, [], false) := by
  have himp : giveMotionImpulse b 0 d = .ok b := by
    simp only [giveMotionImpulse]
    rw [if_pos hv.ne']
    simp only [mul_zero, add_zero]
    rw [sqrt_comp_norm (radians b.motionDirection) b.velocity hv.le]
    rw [if_neg hv.ne']
    rw [quadDir_radians b.motionDirection b.velocity hv hh]
  simp only [giveMotion, himp]
  rfl

/-- Witness for C2 (amended): heading 45 degrees, velocity 2. -/
theorem c2_impulse_identity_witness : giveMotion neBody 0 7 0 [] = .ok (neBody, [], false) :=
  c2_impulse_identity neBody 7 [] (by norm_num [neBody])
    (Or.inl ⟨by norm_num [neBody], by norm_num [neBody]⟩)

/-- Counterexample for C2 as stated: composing a `deltaV = 0` impulse onto
velocity 1 with heading 90 leaves the velocity at 1 but flips the heading
to 270 degrees — the quadrant recombination is not the identity on the
quadrant boundaries. -/
theorem c2_heading_flip :
    giveMotion eastBody 0 0 0 [] = .ok ({ eastBody with motionDirection := 270 }, [], false) ∧
    ({ eastBody with motionDirection := 270 } : Body).motionDirection ≠
      eastBody.motionDirection := by
  have hrad : radians 90 = Real.pi / 2 := by unfold radians; ring
  have hxc : Real.sin (radians eastBody.motionDirection) * eastBody.velocity +
      Real.sin (radians 0) * 0 = 1 := by
    rw [show eastBody.motionDirection = (90 : ℝ) from rfl,
      show eastBody.velocity = (1 : ℝ) from rfl, hrad, Real.sin_pi_div_two]
    norm_num
  have hyc : Real.cos (radians eastBody.motionDirection) * eastBody.velocity +
      Real.cos (radians 0) * 0 = 0 := by
    rw [show eastBody.motionDirection = (90 : ℝ) from rfl,
      show eastBody.velocity = (1 : ℝ) from rfl, hrad, Real.cos_pi_div_two]
    norm_num
  have hq : quadDir 1 0 1 = 270 := by
    have harg : quadArg 1 0 1 = 0 := by
      rw [quadArg, if_neg (by norm_num), if_neg (by norm_num), if_neg (by norm_num)]
      norm_num
    rw [quadDir, harg, Real.arcsin_zero, quadOffset,
      if_neg (by norm_num), if_neg (by norm_num), if_neg (by norm_num)]
    norm_num [degrees]
  have himp : giveMotionImpulse eastBody 0 0 = .ok { eastBody with motionDirection := 270 } := by
    simp only [giveMotionImpulse]
    rw [if_pos (by norm_num [eastBody] : eastBody.velocity ≠ 0)]
    rw [hxc, hyc]
    rw [show Real.sqrt ((1 : ℝ) ^ 2 + (0 : ℝ) ^ 2) = 1 from by norm_num]
    rw [if_neg one_ne_zero, hq]
    norm_num [eastBody]
  refine ⟨?_, by norm_num [eastBody]⟩
  simp only [giveMotion, himp]
  rfl

/-- C7 (amended): velocity is nonnegative after construction always, after
an impulse whose `deltaV` is nonnegative, and after any successful
integration step of a body with positive mass. -/
theorem c7_velocity_nonneg :
    (∀ (n : String) (p : ℝ × ℝ) (r m : ℝ) (c : String), 0 ≤ (mkObject n p r m c).velocity) ∧
    (∀ (b : Body) (dV dir : ℝ) (b' : Body), 0 ≤ dV →
      giveMotionImpulse b dV dir = .ok b' → 0 ≤ b'.velocity) ∧
    (∀ (b : Body) (others : List Body) (b' : Body), 0 < b.mass →
      step b others = .ok b' → 0 ≤ b'.velocity) := by
  refine ⟨fun n p r m c => le_refl 0, ?_, ?_⟩
  · intro b dV dir b' hdV h
    simp only [giveMotionImpulse] at h
    split at h
    · split at h
      · exact Except.noConfusion h
      · rw [Except.ok.injEq] at h
        subst h
        exact Real.sqrt_nonneg _
    · rename_i hvel
      rw [Except.ok.injEq] at h
      subst h
      have hb : b.velocity = 0 := not_not.mp hvel
      show 0 ≤ b.velocity + dV
      rw [hb, zero_add]
      exact hdV
  · intro b others b' hm h
    simp only [step] at h
    repeat' split at h
    all_goals first
      | exact Except.noConfusion h
      | (rw [Except.ok.injEq] at h; subst h;
         exact div_nonneg (Real.sqrt_nonneg _) hm.le)

/-- Witness for C7 (amended): a fresh body, an impulse of `deltaV = 1` on
it, and the probe's successful step. -/
theorem c7_velocity_nonneg_witness :
    0 ≤ (mkObject "W" (0, 0) 1 1 "black").velocity ∧
    0 ≤ ({ mkObject "W" (0, 0) 1 1 "black" with velocity := 0 + 1, motionDirection := 5 } :
      Body).velocity ∧
    0 ≤ exS'.velocity :=
  ⟨c7_velocity_nonneg.1 "W" (0, 0) 1 1 "black",
   c7_velocity_nonneg.2.1 (mkObject "W" (0, 0) 1 1 "black") 1 5 _ (by norm_num)
     (by simp [giveMotionImpulse, mkObject]),
   c7_velocity_nonneg.2.2 exS [exO] exS' (by norm_num [exS]) step_ex⟩

/-- Counterexample for C7 as stated: `giveMotion` with `deltaV = -1` on a
fresh zero-velocity body leaves the velocity negative. -/
theorem c7_negative_velocity :
    ∃ b' : Body, giveMotion (mkObject "Neg" (0, 0) 1 1 "black") (-1) 0 0 [] =
      .ok (b', [], false) ∧ b'.velocity < 0 := by
  refine ⟨{ mkObject "Neg" (0, 0) 1 1 "black" with velocity := 0 + -1, motionDirection := 0 },
    ?_, by norm_num⟩
  have himp : giveMotionImpulse (mkObject "Neg" (0, 0) 1 1 "black") (-1) 0 =
      .ok { mkObject "Neg" (0, 0) 1 1 "black" with velocity := 0 + -1, motionDirection := 0 } := by
    simp [giveMotionImpulse, mkObject]
  simp only [giveMotion, himp]
  rfl

end

end EulerEarth
